import Mathlib

/-!
Verification development for the im2latex-dataset pipeline
(`formula2image.py` and `latex2formulas.py`).

The Python sources are shallowly embedded: pure computations (the SHA-1
content address, string stripping, the size filter, the label-removing
substitution, the dataset-index builder, the validity checker) are
translated into executable Lean functions; interactions with the
operating system (the filesystem, the two external tool invocations,
`glob`) are represented by an explicit environment record whose fields
stand for the observations the Python code makes of the outside world.
-/

/-! ## SHA-1, as used by hashlib.sha1(...).hexdigest() -/

/-- Truncate a natural number to a 32-bit word (`% 2**32`). -/
def w32 (n : Nat) : Nat := n % 4294967296

/-- 32-bit left rotation by s bits. -/
def rotl (s n : Nat) : Nat := w32 ((n <<< s) ||| (n >>> (32 - s)))

/-- Lower-case hexadecimal digit, as produced by hexdigest(). -/
def hexChar (n : Nat) : Char :=
  if n < 10 then Char.ofNat (48 + n) else Char.ofNat (87 + n)

/-- Big-endian 8-hex-digit rendering of a 32-bit word. -/
def toHex8 (n : Nat) : List Char :=
  (List.range 8).map (fun i => hexChar ((n >>> (28 - 4 * i)) % 16))

/-- UTF-8 encoding of a single character (str.encode in Python). -/
def utf8Char (c : Char) : List Nat :=
  let n := c.toNat
  if n < 128 then [n]
  else if n < 2048 then [192 ||| (n >>> 6), 128 ||| (n % 64)]
  else if n < 65536 then
    [224 ||| (n >>> 12), 128 ||| ((n >>> 6) % 64), 128 ||| (n % 64)]
  else
    [240 ||| (n >>> 18), 128 ||| ((n >>> 12) % 64), 128 ||| ((n >>> 6) % 64),
     128 ||| (n % 64)]

/-- UTF-8 encoding of a string, as a list of byte values. -/
def utf8Encode (s : String) : List Nat := (s.data.map utf8Char).flatten

/-- SHA-1 message padding: append 0x80, zero bytes up to 56 mod 64, then
the 8-byte big-endian bit length. -/
def sha1Pad (m : List Nat) : List Nat :=
  let L := m.length
  let k := (120 - (L + 1) % 64) % 64
  m ++ [128] ++ List.replicate k 0 ++
    (List.range 8).map (fun i => ((L * 8) >>> (56 - 8 * i)) % 256)

/-- Split a byte list into 64-byte chunks (fuel-indexed so that it is
structurally recursive; the fuel is the list length, which suffices since
every step consumes at least one element). -/
def chunks64Aux : Nat → List Nat → List (List Nat)
  | 0, _ => []
  | _, [] => []
  | fuel + 1, a :: rest =>
      (a :: rest).take 64 :: chunks64Aux fuel ((a :: rest).drop 64)

/-- Split a byte list into 64-byte chunks. -/
def chunks64 (l : List Nat) : List (List Nat) := chunks64Aux l.length l

/-- Big-endian 32-bit words from a byte list. -/
def bytesToWords : List Nat → List Nat
  | a :: b :: c :: d :: rest =>
      (((a * 256 + b) * 256 + c) * 256 + d) :: bytesToWords rest
  | _ => []

/-- One step of the SHA-1 message-schedule extension: append
rotl1 of w[i-3] xor w[i-8] xor w[i-14] xor w[i-16]. -/
def extendStep (w : List Nat) : List Nat :=
  let k := w.length
  w ++ [rotl 1 ((((w.getD (k - 3) 0) ^^^ (w.getD (k - 8) 0)) ^^^
                 (w.getD (k - 14) 0)) ^^^ (w.getD (k - 16) 0))]

/-- Extend the 16 schedule words to 80. -/
def extendTo80 (w : List Nat) : List Nat :=
  (List.range 64).foldl (fun acc _ => extendStep acc) w

/-- SHA-1 round function. -/
def sha1F (i b c d : Nat) : Nat :=
  if i < 20 then (b &&& c) ||| ((b ^^^ 4294967295) &&& d)
  else if i < 40 then (b ^^^ c) ^^^ d
  else if i < 60 then ((b &&& c) ||| (b &&& d)) ||| (c &&& d)
  else (b ^^^ c) ^^^ d

/-- SHA-1 round constants. -/
def sha1K (i : Nat) : Nat :=
  if i < 20 then 1518500249
  else if i < 40 then 1859775393
  else if i < 60 then 2400959708
  else 3395469782

/-- Compress one 64-byte chunk into the running 5-word state. -/
def sha1Compress (h : List Nat) (chunk : List Nat) : List Nat :=
  let w := extendTo80 (bytesToWords chunk)
  let fin := (List.range 80).foldl
    (fun (st : Nat × Nat × Nat × Nat × Nat) i =>
      let a := st.1
      let b := st.2.1
      let c := st.2.2.1
      let d := st.2.2.2.1
      let e := st.2.2.2.2
      (w32 (rotl 5 a + sha1F i b c d + e + sha1K i + w.getD i 0),
       a, rotl 30 b, c, d))
    (h.getD 0 0, h.getD 1 0, h.getD 2 0, h.getD 3 0, h.getD 4 0)
  [w32 (h.getD 0 0 + fin.1), w32 (h.getD 1 0 + fin.2.1),
   w32 (h.getD 2 0 + fin.2.2.1), w32 (h.getD 3 0 + fin.2.2.2.1),
   w32 (h.getD 4 0 + fin.2.2.2.2)]

/-- The five 32-bit words of the SHA-1 digest of a byte list. -/
def sha1Words (m : List Nat) : List Nat :=
  (chunks64 (sha1Pad m)).foldl sha1Compress
    [1732584193, 4023233417, 2562383102, 271733878, 3285377520]

/-- hashlib.sha1(m).hexdigest(): 40 lower-case hex characters. -/
def sha1hex (m : List Nat) : String :=
  String.mk (((sha1Words m).map toHex8).flatten)

/-- The content address computed by formula_to_image:
`hashlib.sha1(formula.encode(utf-8)).hexdigest()[:20]` — the hash of the
RAW formula text (the % stripping in the source happens after this). -/
def addr (formula : String) : String :=
  String.mk ((sha1hex (utf8Encode formula)).data.take 20)

/-! ## String helpers shared by both scripts -/

/-- Python str.strip() whitespace set (the ASCII part). -/
def isPyWhitespace (c : Char) : Bool :=
  c = ' ' || c = '\t' || c = '\n' || c = '\r' || c = '\x0b' || c = '\x0c'

/-- Python str.strip(): drop leading and trailing whitespace. -/
def pyStrip (s : String) : String :=
  String.mk (((s.data.dropWhile isPyWhitespace).reverse.dropWhile
    isPyWhitespace).reverse)

/-- Python formula.strip("%"): drop leading and trailing percent signs. -/
def pyStripPercent (s : String) : String :=
  String.mk (((s.data.dropWhile (fun c => c = '%')).reverse.dropWhile
    (fun c => c = '%')).reverse)

/-- Python x.replace("\n", "").replace("\r", ""): delete every newline and
carriage return. -/
def stripNewlines (s : String) : String :=
  String.mk (s.data.filter (fun c => !(c = '\n' || c = '\r')))

/-- Python " ".join(l). -/
def joinSpace (l : List String) : String := String.intercalate " " l

/-- Split a character list at every occurrence of the character `t`,
keeping empty pieces (the behaviour of Python s.split(" ")). -/
def splitCharAux (t : Char) : List Char → List (List Char)
  | [] => [[]]
  | c :: rest =>
      let r := splitCharAux t rest
      if c = t then [] :: r
      else
        match r with
        | h :: tl => (c :: h) :: tl
        | [] => [[c]]

/-- Python line.split(" "). -/
def pySplitSpace (s : String) : List String :=
  (splitCharAux ' ' s.data).map String.mk

/-- Python int(s) on the decimal-digit strings the validator and the
claims concern (on other strings int() raises ValueError, which is
outside every claim's scope). -/
def pyInt (s : String) : Nat :=
  s.data.foldl (fun n c => n * 10 + (c.toNat - 48)) 0

/-! ## formula2image.py: formula_to_image -/

/-- The BASIC_SKELETON template applied to a formula
(`BASIC_SKELETON % formula` in the source). -/
def basicSkeleton (formula : String) : String :=
  "\n\\documentclass[12pt]\x7barticle\x7d\n\\pagestyle\x7bempty\x7d\n\\usepackage\x7bamsmath\x7d\n\\begin\x7bdocument\x7d\n\n\\begin\x7bdisplaymath\x7d\n"
  ++ formula ++
  "\n\\end\x7bdisplaymath\x7d\n\n\\end\x7bdocument\x7d\n"

/-- The observations `formula_to_image` makes of the outside world:
  * `hashOk` — whether the sha1 address derivation (the only code inside
    the function's try/except) succeeds;
  * `disk` — the file names present in the working directory, consulted
    by `os.path.isfile(name + ".png")`;
  * `writeTexOk` — whether opening and writing the .tex source artifact
    succeeds (an OSError there is NOT inside any try/except);
  * `pdflatexCode`, `pdftoppmCode` — exit codes of the two external
    tool invocations;
  * `globMatches` — the result of `glob.glob(full_name + "-*")`. -/
structure RenderEnv where
  hashOk : Bool
  disk : List String
  writeTexOk : Bool
  pdflatexCode : Nat
  pdftoppmCode : Nat
  globMatches : List String

/-- Shallow embedding of `formula_to_image`.  `Except.error ()` models an
exception escaping the function (aborting the worker); `Except.ok none`
models `return None`; `Except.ok (some r)` models a successful return.
The `rm -rf` cleanup side effects are not observable in the return value
and are not modelled. -/
def formula_to_image (env : RenderEnv) (formula : String) :
    Except Unit (Option (List (List String))) :=
  if env.hashOk = false then Except.ok none
  else
    let name := addr formula
    if (name ++ ".png") ∈ env.disk then Except.ok none
    else
      let full_name := name ++ "_basic"
      let texContent := basicSkeleton (pyStripPercent formula)
      if env.writeTexOk = false then Except.error ()
      else if env.pdflatexCode ≠ 0 then Except.ok none
      else if env.pdftoppmCode ≠ 0 then Except.ok none
      else if env.globMatches.length > 1 then Except.ok none
      else
        let _ := texContent
        Except.ok (some [[full_name, "basic"]])

/-! ## formula2image.py: the index builder inside main -/

/-- Accumulator of the output-writing loop at the end of `main`:
`new_dataset_lines`, `new_formulas` and `ctr`. -/
structure BuildState where
  lines : List String
  formulas : List String
  ctr : Nat
deriving DecidableEq

/-- One iteration of the loop over `zipped = zip(formulas, names)`. -/
def buildStep (st : BuildState) (p : String × Option (List (List String))) :
    BuildState :=
  match p.2 with
  | none => st
  | some setups =>
      { lines := st.lines ++
          setups.map (fun rs => toString st.ctr ++ " " ++ joinSpace rs),
        formulas := st.formulas ++ [p.1],
        ctr := st.ctr + 1 }

/-- The index-building loop of `main`: walk the (formula, render result)
pairs in order, skip `None` results, emit one index line per rendering
setup under a dense counter, and collect the surviving formulas. -/
def buildDataset (zipped : List (String × Option (List (List String)))) :
    BuildState :=
  zipped.foldl buildStep ⟨[], [], 0⟩

/-! ## formula2image.py: check_validity -/

/-- One iteration of the loop in `check_validity`: skip empty lines, set
`max_id` to the FIRST token of the line (the source overwrites it with
`splt[0]` instead of taking a maximum; the `none` state models its
initial integer value 0) and count a missing file when the second token
plus ".png" is not in the image directory listing. -/
def validityStep (formula_images : List String)
    (st : Option String × Nat) (line : String) : Option String × Nat :=
  if line = "" then st
  else
    let splt := pySplitSpace line
    (some (splt.headD ""),
     if (splt.getD 1 "" ++ ".png") ∈ formula_images then st.2
     else st.2 + 1)

/-- Shallow embedding of `check_validity`, continued: run the loop and
report.  Note `splt[1]` on a spaceless line would raise IndexError in the
source; the claims only concern well-formed three-token rows, for which
`getD` agrees. -/
def check_validity (dataset_lines formula_file formula_images : List String) :
    Nat × Bool :=
  let st := dataset_lines.foldl (validityStep formula_images) (none, 0)
  let maxId := match st.1 with
    | none => 0
    | some s => pyInt s
  (st.2, decide (maxId + 1 ≠ formula_file.length))

/-! ## latex2formulas.py -/

/-- Minimum stripped length (exclusive) for a span to be kept. -/
def MIN_LENGTH : Nat := 40

/-- Maximum stripped length (exclusive) for a span to be kept. -/
def MAX_LENGTH : Nat := 1024

/-- The per-pattern comprehension in `get_formulas`: keep the matches
whose stripped length lies strictly between MIN_LENGTH and MAX_LENGTH,
and normalize each survivor by stripping and deleting newlines. -/
def processPattern (result : List String) : List String :=
  (result.filter (fun x =>
      decide (MIN_LENGTH < (pyStrip x).length ∧
              (pyStrip x).length < MAX_LENGTH))).map
    (fun x => stripNewlines (pyStrip x))

/-- Leftmost index at which `pat` occurs as a contiguous sublist. -/
def subFindIdx (pat : List Char) : List Char → Option Nat
  | [] => if pat.isPrefixOf ([] : List Char) then some 0 else none
  | c :: rest =>
      if pat.isPrefixOf (c :: rest) then some 0
      else (subFindIdx pat rest).map (fun i => i + 1)

/-- Rightmost index at which character `t` occurs. -/
def lastIdxOfChar (t : Char) : List Char → Option Nat
  | [] => none
  | c :: rest =>
      match lastIdxOfChar t rest with
      | some j => some (j + 1)
      | none => if c = t then some 0 else none

/-- The literal characters matched by the source's substitution pattern.
In the Python string literal the pattern is backslash-l-a-b-e-l-brace-
dot-star-brace; the regex escape backslash-l matches the literal letter
l, so the fixed part of the pattern is "label" followed by an opening
brace — the backslash in the text is NOT part of the match. -/
def labelPat : List Char := "label\x7b".data

/-- Shallow embedding of the substitution in `get_formulas`
(`re.sub` of the label pattern with the empty string): find the leftmost
occurrence of "label" + opening brace, extend greedily (the dot is
greedy) to the RIGHTMOST closing brace of the string, and delete that
whole region; if no occurrence or no closing brace after it, return the
string unchanged.  (After a successful greedy match no closing brace
remains to its right, and no "label"+brace occurrence precedes the
leftmost one, so there is at most one substitution.) -/
def pySubLabel (s : String) : String :=
  let l := s.data
  match subFindIdx labelPat l with
  | none => s
  | some i =>
      match lastIdxOfChar '\x7d' l with
      | none => s
      | some j =>
          if i + 6 ≤ j then String.mk (l.take i ++ l.drop (j + 1)) else s

/-- Shallow embedding of `get_formulas`.  The regular-expression engine
is abstracted as `findall`, mapping a pattern index (0..4, the order of
PATTERNS) to the list of spans it matches in the document; the function
itself contributes the size filter, the normalization and the parallel
label-stripped variant, concatenated across patterns in order. -/
def get_formulas (findall : Nat → List String) :
    List String × List String :=
  (List.range 5).foldl
    (fun (acc : List String × List String) p =>
      let result := processPattern (findall p)
      let result_mod := result.map pySubLabel
      (acc.1 ++ result, acc.2 ++ result_mod))
    ([], [])

/-- The extraction loop of `main` in latex2formulas.py: walk the corpus
documents in order and accumulate both sequences returned by
`get_formulas` (the archive mechanics are abstracted away; `findall`
takes the pattern index and the document). -/
def extractCorpus (findall : Nat → String → List String)
    (docs : List String) : List String × List String :=
  docs.foldl
    (fun (acc : List String × List String) d =>
      let r := get_formulas (fun p => findall p d)
      (acc.1 ++ r.1, acc.2 ++ r.2))
    ([], [])

/-! ## Derived characterizations and spec-side comparison definitions -/

/-- Modelled from the spec: the id the spec says the validator compares —
the MAXIMUM id over all non-empty index rows (for comparison with the
source's last-row behaviour). -/
def maxIdSpec (dataset_lines : List String) : Nat :=
  (dataset_lines.filter (fun l => l ≠ "")).foldl
    (fun m line => max m (pyInt ((pySplitSpace line).headD ""))) 0

/-- The id `check_validity` actually ends up comparing: the first token
of the last non-empty row (0 when there is none). -/
def lastIdParsed (dataset_lines : List String) : Nat :=
  pyInt ((pySplitSpace
    ((dataset_lines.filter (fun l => l ≠ "")).getLastD "0")).headD "")

/-- The number of non-empty index rows whose referenced image (second
token plus ".png") is absent from the image directory listing. -/
def missingCount (dataset_lines formula_images : List String) : Nat :=
  (dataset_lines.filter (fun l => l ≠ "")).countP
    (fun line =>
      !(decide (((pySplitSpace line).getD 1 "" ++ ".png") ∈ formula_images)))

/-- The surviving (formula, render result) pairs, in input order. -/
def survivors (z : List (String × Option (List (List String)))) :
    List (String × List (List String)) :=
  z.filterMap (fun p => p.2.map (fun r => (p.1, r)))

/-- The render results of the surviving pairs, in input order. -/
def survRes (z : List (String × Option (List (List String)))) :
    List (List (List String)) :=
  z.filterMap (fun p => p.2)

/-- The index line emitted for id `i` and rendering setup `rs`. -/
def renderLine (i : Nat) (rs : List String) : String :=
  toString i ++ " " ++ joinSpace rs

/-- The ids carried by the emitted index lines, one per line. -/
def indexIds (z : List (String × Option (List (List String)))) : List Nat :=
  ((survRes z).enum).flatMap (fun q => q.2.map (fun _ => q.1))

/-- Maximum of a list of naturals (0 for the empty list). -/
def listMax (l : List Nat) : Nat := l.foldr max 0

/-! ## Concrete inputs used by counterexamples and witnesses -/

/-- A state in which the checked raster file for formula "x" exists. -/
def envExisting : RenderEnv :=
  ⟨true, [addr "x" ++ ".png"], true, 0, 0, []⟩

/-- A state in which writing the .tex source artifact raises. -/
def envBadWrite : RenderEnv := ⟨true, [], false, 0, 0, []⟩

/-- A state in which everything succeeds and glob finds no file. -/
def envClean : RenderEnv := ⟨true, [], true, 0, 0, []⟩

/-- A state in which the address derivation raises. -/
def envHashFail : RenderEnv := ⟨false, [], true, 0, 0, []⟩

/-- A state whose disk holds only a raster produced by the pipeline
itself (named address + "_basic.png"). -/
def envOldRun : RenderEnv :=
  ⟨true, [addr "z" ++ "_basic.png"], true, 0, 0, []⟩

/-- A small (formula, render result) input for the index builder. -/
def z0 : List (String × Option (List (List String))) :=
  [("f1", some [["a", "basic"]]), ("f2", none), ("f3", some [["b", "basic"]])]

/-- A length-qualifying matched span containing a label construct. -/
def spanRaw : String :=
  String.mk (List.replicate 30 'a') ++ " x=y \\label\x7beq:1\x7d"

/-- The abstracted regex engine returning `spanRaw` for the first
pattern and nothing for the others. -/
def findallSpan : Nat → List String :=
  fun p => if p = 0 then [spanRaw] else []

/-- An abstracted regex engine for corpus extraction that matches
nothing anywhere. -/
def findallNone : Nat → String → List String := fun _ _ => []

/-! ## Helper lemmas -/

theorem sha1Compress_length (h c : List Nat) : (sha1Compress h c).length = 5 :=
  rfl

theorem sha1Words_length (m : List Nat) : (sha1Words m).length = 5 := by
  have key : ∀ (cs : List (List Nat)) (h : List Nat), h.length = 5 →
      (cs.foldl sha1Compress h).length = 5 := by
    intro cs
    induction cs with
    | nil => intro h hh; simpa using hh
    | cons c t ih => intro h hh; simpa using ih _ (sha1Compress_length h c)
  exact key _ _ rfl

theorem toHex8_length (n : Nat) : (toHex8 n).length = 8 := by simp [toHex8]

theorem sha1hex_data_length (m : List Nat) : (sha1hex m).data.length = 40 := by
  have hsum : ∀ ws : List Nat, ((ws.map toHex8).map List.length).sum =
      8 * ws.length := by
    intro ws
    induction ws with
    | nil => simp
    | cons a t ih => simp only [List.map_cons, List.sum_cons, toHex8_length, List.length_cons]; omega
  show (((sha1Words m).map toHex8).flatten).length = 40
  rw [List.length_flatten, hsum, sha1Words_length]

theorem addr_length (f : String) : (addr f).length = 20 := by
  show ((sha1hex (utf8Encode f)).data.take 20).length = 20
  rw [List.length_take, sha1hex_data_length]
  rfl

theorem addrBasic_ne_check (f g : String) :
    addr f ++ "_basic.png" ≠ addr g ++ ".png" := by
  intro h
  have hlen := congrArg String.length h
  rw [String.length_append, String.length_append, addr_length, addr_length]
    at hlen
  have h1 : ("_basic.png" : String).length = 10 := rfl
  have h2 : (".png" : String).length = 4 := rfl
  rw [h1, h2] at hlen
  omega

/-! ## Claim C1 -/

/-- C1: counterexample.  A formula ("x") whose checked raster file
already exists on disk does NOT get an already-successful (non-null)
render result: `formula_to_image` returns the null result (`return
None`), so the claim as stated is false. -/
theorem c1_counterexample :
    (addr "x" ++ ".png") ∈ envExisting.disk ∧
    formula_to_image envExisting "x" = Except.ok none := by
  constructor
  · simp [envExisting]
  · simp [formula_to_image, envExisting]

/-- C1 (amended): when the checked raster file `<address>.png` exists on
disk, the render step is skipped but the formula is treated as FAILED
(null result), not successful; moreover the pipeline itself only ever
produces rasters named `<address>_basic.png`, which never match the
check, so on a disk populated only by a previous run nothing is skipped
and the function behaves exactly as on an empty disk (hence a second
identical run reproduces the first run's artifacts by re-rendering
everything, not by resuming). -/
theorem c1_amended :
    (∀ (env : RenderEnv) (f : String),
        (addr f ++ ".png") ∈ env.disk →
        formula_to_image env f = Except.ok none) ∧
    (∀ (env : RenderEnv) (f : String),
        (∀ s ∈ env.disk, ∃ g, s = addr g ++ "_basic.png") →
        formula_to_image env f =
          formula_to_image { env with disk := [] } f) := by
  constructor
  · intro env f hmem
    by_cases hh : env.hashOk = false
    · simp [formula_to_image, hh]
    · simp [formula_to_image, hh, hmem]
  · intro env f hdisk
    have hmem : (addr f ++ ".png") ∉ env.disk := by
      intro hm
      obtain ⟨g, hg⟩ := hdisk _ hm
      exact addrBasic_ne_check g f hg.symm
    by_cases hh : env.hashOk = false
    · simp [formula_to_image, hh]
    · simp [formula_to_image, hh, hmem]

/-- C1: witness for the amended theorem at concrete inputs. -/
theorem c1_witness :
    formula_to_image envExisting "x" = Except.ok none ∧
    formula_to_image envOldRun "y" =
      formula_to_image { envOldRun with disk := [] } "y" :=
  ⟨c1_amended.1 envExisting "x" (by simp [envExisting]),
   c1_amended.2 envOldRun "y" (by
     intro s hs
     exact ⟨"z", by simpa [envOldRun] using hs⟩)⟩

/-! ## Claim C2 -/

set_option maxRecDepth 40000 in
/-- C2: counterexample.  The content address is the hash of the RAW
formula bytes, computed BEFORE the percent stripping, so prepending a
"%" to a formula changes its address: the claim's equation fails at a
41-character formula (longer than MIN_LENGTH, like every formula the
pipeline actually hashes). -/
theorem c2_counterexample :
    addr ("%" ++ String.mk (List.replicate 41 'a')) ≠
      addr (String.mk (List.replicate 41 'a')) := by decide

/-- C2 (amended): the content address depends only on the exact byte
content of the RAW formula (the leading-% stripping in the source
happens after hashing and affects only the rendered LaTeX body), and it
is a cryptographic hash truncated to a fixed prefix of 20 hex
characters. -/
theorem c2_amended :
    (∀ f g : String, utf8Encode f = utf8Encode g → addr f = addr g) ∧
    (∀ f : String, (addr f).length = 20) :=
  ⟨fun f g h => by simp [addr, h], fun f => addr_length f⟩

/-- C2: witness for the amended theorem at concrete inputs. -/
theorem c2_witness : addr "x" = addr "x" ∧ (addr "x").length = 20 :=
  ⟨c2_amended.1 "x" "x" rfl, c2_amended.2 "x"⟩

/-! ## Claim C3 -/

/-- C3: counterexample.  An exception while writing the .tex source
artifact is NOT caught: in a state where the write raises, the per-item
function propagates the exception (modelled as `Except.error`) instead
of returning a null result, so the claim as stated is false. -/
theorem c3_counterexample :
    formula_to_image envBadWrite "x" = Except.error () ∧
    (Except.error () : Except Unit (Option (List (List String)))) ≠
      Except.ok none := by
  constructor
  · rfl
  · simp

/-- C3 (amended): only the address-derivation step is inside the
try/except — a failure there is converted to a null result; exceptions
from later steps (e.g. writing the source artifact) are not caught and
propagate out of the per-item function. -/
theorem c3_amended (env : RenderEnv) (f : String)
    (h : env.hashOk = false) :
    formula_to_image env f = Except.ok none := by
  simp [formula_to_image, h]

/-- C3: witness for the amended theorem at a concrete input. -/
theorem c3_witness : formula_to_image envHashFail "x" = Except.ok none :=
  c3_amended envHashFail "x" rfl

/-! ## Claim C10 -/

/-- C10: when the address derivation succeeds, the checked raster file is
absent, the source artifact write succeeds, both external tool
invocations return exit code 0 and at most one file matches the glob
pattern `<address>_basic-*`, `formula_to_image` returns the non-null
success result `[[<address>_basic, "basic"]]` — in particular it does so
even when ZERO files match the pattern, without verifying that any
raster image exists on disk. -/
theorem c10_success (env : RenderEnv) (f : String)
    (h1 : env.hashOk = true)
    (h2 : (addr f ++ ".png") ∉ env.disk)
    (h3 : env.writeTexOk = true)
    (h4 : env.pdflatexCode = 0)
    (h5 : env.pdftoppmCode = 0)
    (h6 : env.globMatches.length ≤ 1) :
    formula_to_image env f =
      Except.ok (some [[addr f ++ "_basic", "basic"]]) := by
  simp [formula_to_image, h1, h2, h3, h4, h5, Nat.not_lt.mpr h6]

/-- C10: witness at a concrete state in which glob finds zero files. -/
theorem c10_witness :
    envClean.globMatches.length = 0 ∧
    formula_to_image envClean "x" =
      Except.ok (some [[addr "x" ++ "_basic", "basic"]]) :=
  ⟨rfl, c10_success envClean "x" rfl (by simp [envClean]) rfl rfl rfl
    (by simp [envClean])⟩

/-! ## Claim C4 -/

theorem validity_fold (imgs d : List String) :
    ∀ st : Option String × Nat,
      d.foldl (validityStep imgs) st =
        ((((d.filter (fun l => l ≠ "")).getLast?).map
            (fun line => (pySplitSpace line).headD "")).or st.1,
         st.2 + (d.filter (fun l => l ≠ "")).countP
           (fun line =>
             !(decide (((pySplitSpace line).getD 1 "" ++ ".png") ∈ imgs)))) := by
  induction d with
  | nil => intro st; simp
  | cons a t ih =>
      intro st
      rw [List.foldl_cons, ih]
      by_cases ha : a = ""
      · subst ha
        simp [validityStep]
      · rw [List.filter_cons_of_pos (by simp [ha])]
        cases hft : t.filter (fun l => l ≠ "") with
        | nil =>
            simp only [List.getLast?_nil, List.getLast?_singleton,
              Option.map_none, Option.map_some, Option.none_or,
              Option.or_some, List.countP_nil, List.countP_cons,
              validityStep, if_neg ha, Prod.mk.injEq]
            refine ⟨rfl, ?_⟩
            split <;> simp_all
        | cons b bs =>
            simp only [List.getLast?_cons_cons,
              List.getLast?_eq_getLast (b :: bs) (by simp),
              Option.map_some, Option.or_some,
              List.countP_cons, validityStep, if_neg ha, Prod.mk.injEq]
            refine ⟨rfl, ?_⟩
            split <;> simp_all
            omega

/-- C4: counterexample.  On an index whose ids are not in sorted order
(rows "1 a basic" then "0 b basic"), a 2-line formula file and both
images present, the validator DOES report a length mismatch even though
the maximum id plus 1 (= 2) equals the formula-file line count: the
source compares the id of the last row parsed, not the maximum. -/
theorem c4_counterexample :
    check_validity ["1 a basic", "0 b basic"] ["f", "g"]
        ["a.png", "b.png"] = (0, true) ∧
    maxIdSpec ["1 a basic", "0 b basic"] + 1 =
      (["f", "g"] : List String).length := by
  constructor
  · decide
  · decide

/-- C4 (amended): `check_validity` counts the non-empty index rows whose
image basename plus ".png" is absent from the image directory listing,
and reports a length mismatch exactly when the id of the LAST non-empty
row parsed (not the maximum id) plus 1 differs from the formula-file
line count. -/
theorem c4_amended (d fl imgs : List String) :
    check_validity d fl imgs =
      (missingCount d imgs, decide (lastIdParsed d + 1 ≠ fl.length)) := by
  unfold check_validity
  rw [validity_fold]
  unfold lastIdParsed missingCount
  rw [List.getLastD_eq_getLast?]
  cases hg : (d.filter (fun l => l ≠ "")).getLast? with
  | none => simp [pyInt, pySplitSpace, splitCharAux]
  | some line => simp

/-! ## Claims C5 and C6 -/

theorem build_fold (z : List (String × Option (List (List String)))) :
    ∀ st : BuildState,
      z.foldl buildStep st =
        ⟨st.lines ++ ((survRes z).enumFrom st.ctr).flatMap
            (fun q => q.2.map (renderLine q.1)),
          st.formulas ++ (z.filter (fun p => p.2.isSome)).map Prod.fst,
          st.ctr + (survRes z).length⟩ := by
  induction z with
  | nil => intro st; simp [survRes]
  | cons p t ih =>
      intro st
      cases hp : p.2 with
      | none =>
          rw [List.foldl_cons]
          have hstep : buildStep st p = st := by simp [buildStep, hp]
          rw [hstep, ih]
          simp [survRes, List.filterMap_cons, List.filter_cons, hp]
      | some setups =>
          rw [List.foldl_cons]
          have hstep : buildStep st p =
              ⟨st.lines ++ setups.map (renderLine st.ctr),
               st.formulas ++ [p.1], st.ctr + 1⟩ := by
            simp [buildStep, hp, renderLine]
          rw [hstep, ih]
          simp only [survRes, List.filterMap_cons, hp, List.filter_cons,
            Option.isSome_some, if_pos, List.enumFrom_cons,
            List.flatMap_cons, List.map_cons, List.length_cons,
            List.append_assoc, BuildState.mk.injEq]
          refine ⟨by simp, by simp, by omega⟩

theorem ids_enumFrom_toFinset (rs : List (List (List String))) :
    ∀ n : Nat, (∀ r ∈ rs, r ≠ []) →
      ((rs.enumFrom n).flatMap (fun q => q.2.map (fun _ => q.1))).toFinset =
        Finset.Ico n (n + rs.length) := by
  induction rs with
  | nil => intro n h; simp
  | cons r t ih =>
      intro n h
      have hr : r ≠ [] := h r (by simp)
      have ht := ih (n + 1) (fun x hx => h x (by simp [hx]))
      simp only [List.enumFrom_cons, List.flatMap_cons, List.toFinset_append,
        ht, List.length_cons]
      ext x
      simp only [Finset.mem_union, List.mem_toFinset, List.mem_map,
        Finset.mem_Ico]
      constructor
      · rintro (⟨a, _, rfl⟩ | ⟨h1, h2⟩) <;> constructor <;> omega
      · rintro ⟨h1, h2⟩
        by_cases hx : x = n
        · left
          obtain ⟨a, ha⟩ := List.exists_mem_of_ne_nil r hr
          exact ⟨a, ha, hx.symm⟩
        · right
          constructor <;> omega

theorem survForms_eq (z : List (String × Option (List (List String)))) :
    (z.filter (fun p => p.2.isSome)).map Prod.fst =
      (survivors z).map Prod.fst := by
  induction z with
  | nil => rfl
  | cons p t ih =>
      cases hp : p.2 <;>
        simp [survivors, List.filter_cons, List.filterMap_cons, hp,
          ih, survivors]

theorem survRes_eq (z : List (String × Option (List (List String)))) :
    survRes z = (survivors z).map Prod.snd := by
  induction z with
  | nil => rfl
  | cons p t ih =>
      simp only [survRes, survivors] at ih ⊢
      cases hp : p.2 <;> simp [List.filterMap_cons, hp, ih]

theorem survRes_length (z : List (String × Option (List (List String)))) :
    (survRes z).length = (z.filter (fun p => p.2.isSome)).length := by
  induction z with
  | nil => rfl
  | cons p t ih =>
      simp only [survRes] at ih ⊢
      cases hp : p.2 <;>
        simp [List.filterMap_cons, List.filter_cons, hp, ih]

theorem le_listMax {l : List Nat} {a : Nat} (h : a ∈ l) : a ≤ listMax l := by
  induction l with
  | nil => simp at h
  | cons b t ih =>
      rcases List.mem_cons.mp h with rfl | h2
      · simp [listMax]
      · exact le_trans (ih h2) (by simp [listMax])

theorem listMax_le {l : List Nat} {b : Nat} (h : ∀ a ∈ l, a ≤ b) :
    listMax l ≤ b := by
  induction l with
  | nil => simp [listMax]
  | cons c t ih =>
      simp only [listMax, List.foldr_cons, max_le_iff]
      exact ⟨h c (by simp), ih (fun a ha => h a (by simp [ha]))⟩

/-- C5: for every (formula, render-result) sequence walked in original
order, the two artifacts are positionally consistent: the surviving
formulas, the surviving results and the emitted index lines all follow
the order of the surviving pairs, so the formula at offset `id` is
exactly the formula of the pair whose result produced the index rows
carrying `id`; and (when every non-null result is non-empty and at least
one pair survives) the maximum id plus 1 equals the number of lines of
the formula-list artifact. -/
theorem c5_positional (z : List (String × Option (List (List String))))
    (hne : ∀ p ∈ z, ∀ r, p.2 = some r → r ≠ [])
    (hk : survivors z ≠ []) :
    (buildDataset z).formulas = (survivors z).map Prod.fst ∧
    survRes z = (survivors z).map Prod.snd ∧
    (buildDataset z).lines =
      ((survRes z).enum).flatMap (fun q => q.2.map (renderLine q.1)) ∧
    listMax (indexIds z) + 1 = (buildDataset z).formulas.length := by
  have hres : ∀ r ∈ survRes z, r ≠ [] := by
    intro r hr
    obtain ⟨p, hp, hp2⟩ := List.mem_filterMap.mp hr
    exact hne p hp r hp2
  have hbuild := build_fold z ⟨[], [], 0⟩
  have hforms : (buildDataset z).formulas = (survivors z).map Prod.fst := by
    unfold buildDataset
    rw [hbuild, ← survForms_eq]
    simp
  have hlines : (buildDataset z).lines =
      ((survRes z).enum).flatMap (fun q => q.2.map (renderLine q.1)) := by
    unfold buildDataset
    rw [hbuild]
    rfl
  have hids : (indexIds z).toFinset = Finset.range (survRes z).length := by
    unfold indexIds
    rw [show (survRes z).enum = (survRes z).enumFrom 0 from rfl,
      ids_enumFrom_toFinset (survRes z) 0 hres]
    rw [Finset.range_eq_Ico, Nat.zero_add]
  have hklen : (survRes z).length = (survivors z).length := by
    rw [survRes_eq]
    simp
  have hkpos : 0 < (survRes z).length := by
    rw [hklen]
    exact List.length_pos.mpr hk
  have hmax : listMax (indexIds z) = (survRes z).length - 1 := by
    refine le_antisymm ?_ ?_
    · refine listMax_le (fun a ha => ?_)
      have : a ∈ (indexIds z).toFinset := List.mem_toFinset.mpr ha
      rw [hids] at this
      have := Finset.mem_range.mp this
      omega
    · refine le_listMax ?_
      have : (survRes z).length - 1 ∈ (indexIds z).toFinset := by
        rw [hids]
        exact Finset.mem_range.mpr (by omega)
      exact List.mem_toFinset.mp this
  refine ⟨hforms, survRes_eq z, hlines, ?_⟩
  rw [hmax, hforms]
  simp only [List.length_map]
  omega

/-- C5: witness at a concrete input. -/
theorem c5_witness :
    (buildDataset z0).formulas = (survivors z0).map Prod.fst ∧
    survRes z0 = (survivors z0).map Prod.snd ∧
    (buildDataset z0).lines =
      ((survRes z0).enum).flatMap (fun q => q.2.map (renderLine q.1)) ∧
    listMax (indexIds z0) + 1 = (buildDataset z0).formulas.length :=
  c5_positional z0
    (by
      intro p hp r hr he
      subst he
      simp only [z0, List.mem_cons, List.not_mem_nil, or_false] at hp
      rcases hp with rfl | rfl | rfl <;> simp_all)
    (by decide)

/-- C6: null results are skipped and contribute nothing; the set of ids
appearing in the emitted index lines (each of the form
"id image-name variant") is exactly the range 0..k-1 where k is the
number of pairs with a non-null render result, provided every non-null
result is a non-empty setup list (as every result produced by
formula_to_image is). -/
theorem c6_index_density (z : List (String × Option (List (List String))))
    (hne : ∀ p ∈ z, ∀ r, p.2 = some r → r ≠ []) :
    (buildDataset z).lines =
      ((survRes z).enum).flatMap (fun q => q.2.map (renderLine q.1)) ∧
    (indexIds z).toFinset =
      Finset.range ((z.filter (fun p => p.2.isSome)).length) := by
  have hres : ∀ r ∈ survRes z, r ≠ [] := by
    intro r hr
    obtain ⟨p, hp, hp2⟩ := List.mem_filterMap.mp hr
    exact hne p hp r hp2
  constructor
  · unfold buildDataset
    rw [build_fold z ⟨[], [], 0⟩]
    rfl
  · unfold indexIds
    rw [show (survRes z).enum = (survRes z).enumFrom 0 from rfl,
      ids_enumFrom_toFinset (survRes z) 0 hres, ← survRes_length]
    rw [Finset.range_eq_Ico, Nat.zero_add]

/-- C6: witness at a concrete input containing a null result. -/
theorem c6_witness :
    (buildDataset z0).lines =
      ((survRes z0).enum).flatMap (fun q => q.2.map (renderLine q.1)) ∧
    (indexIds z0).toFinset =
      Finset.range ((z0.filter (fun p => p.2.isSome)).length) :=
  c6_index_density z0
    (by
      intro p hp r hr he
      subst he
      simp only [z0, List.mem_cons, List.not_mem_nil, or_false] at hp
      rcases hp with rfl | rfl | rfl <;> simp_all)

/-! ## Claim C7 -/

/-- C7: the size window is exclusive on both ends — a matched span whose
stripped length is exactly MIN_LENGTH, or at least MAX_LENGTH, is
discarded (it contributes nothing to the output, wherever it sits in the
match list), while a span of stripped length MIN_LENGTH + 1 is retained
at its position. -/
theorem c7_size_window (pre post : List String) (x : String) :
    (((pyStrip x).length = MIN_LENGTH ∨ MAX_LENGTH ≤ (pyStrip x).length) →
        processPattern (pre ++ x :: post) =
          processPattern pre ++ processPattern post) ∧
    ((pyStrip x).length = MIN_LENGTH + 1 →
        processPattern (pre ++ x :: post) =
          processPattern pre ++ stripNewlines (pyStrip x) ::
            processPattern post) := by
  constructor
  · intro h
    have hc : ¬(MIN_LENGTH < (pyStrip x).length ∧
        (pyStrip x).length < MAX_LENGTH) := by
      simp only [MIN_LENGTH, MAX_LENGTH] at h ⊢
      omega
    simp [processPattern, List.filter_append, List.filter_cons, hc]
  · intro h
    have hc : MIN_LENGTH < (pyStrip x).length ∧
        (pyStrip x).length < MAX_LENGTH := by
      simp only [MIN_LENGTH, MAX_LENGTH] at h ⊢
      omega
    simp [processPattern, List.filter_append, List.filter_cons, hc]

set_option maxRecDepth 40000 in
/-- C7: witness at spans of stripped length 40, 1024 and 41. -/
theorem c7_witness :
    processPattern [String.mk (List.replicate 40 'a')] = [] ∧
    processPattern [String.mk (List.replicate 1024 'a')] = [] ∧
    processPattern [String.mk (List.replicate 41 'a')] =
      [stripNewlines (pyStrip (String.mk (List.replicate 41 'a')))] :=
  ⟨(c7_size_window [] [] (String.mk (List.replicate 40 'a'))).1
      (Or.inl (by decide)),
   (c7_size_window [] [] (String.mk (List.replicate 1024 'a'))).1
      (Or.inr (by decide)),
   (c7_size_window [] [] (String.mk (List.replicate 41 'a'))).2
      (by decide)⟩

/-! ## Claim C8 -/

set_option maxRecDepth 40000 in
/-- C8: counterexample.  For a length-qualifying span containing the
construct backslash-label-brace-eq:1-brace, the raw match is retained
verbatim (still containing the construct), but the normalized variant is
NOT the raw match with that construct removed: the substitution pattern
(whose backslash-l regex escape matches a literal letter l) deletes only
"label" + braces, leaving the preceding backslash behind, so the claimed
equality fails at this input. -/
theorem c8_counterexample :
    (get_formulas findallSpan).1 = [spanRaw] ∧
    (subFindIdx ("\\label\x7beq:1\x7d".data) spanRaw.data).isSome =
      true ∧
    (get_formulas findallSpan).2 =
      [String.mk (List.replicate 30 'a') ++ " x=y \\"] ∧
    (String.mk (List.replicate 30 'a') ++ " x=y \\") ≠
      String.mk (List.replicate 30 'a') ++ " x=y " := by
  refine ⟨by decide, by decide, by decide, by decide⟩

/-- C8 (amended): the normalized sequence is the raw sequence with the
source's label substitution applied elementwise (so both sequences have
equal length and corresponding positions); that substitution deletes
"label" + opening brace through the rightmost closing brace but leaves
the backslash that precedes "label" in place, rather than removing the
whole backslash-label construct. -/
theorem c8_amended (findall : Nat → List String) :
    (get_formulas findall).2 = (get_formulas findall).1.map pySubLabel ∧
    (get_formulas findall).2.length = (get_formulas findall).1.length := by
  have key : ∀ (ps : List Nat) (acc : List String × List String),
      acc.2 = acc.1.map pySubLabel →
      (ps.foldl (fun (acc : List String × List String) p =>
          let result := processPattern (findall p)
          let result_mod := result.map pySubLabel
          (acc.1 ++ result, acc.2 ++ result_mod)) acc).2 =
        (ps.foldl (fun (acc : List String × List String) p =>
          let result := processPattern (findall p)
          let result_mod := result.map pySubLabel
          (acc.1 ++ result, acc.2 ++ result_mod)) acc).1.map pySubLabel := by
    intro ps
    induction ps with
    | nil => intro acc h; simpa using h
    | cons p t ih =>
        intro acc h
        rw [List.foldl_cons]
        exact ih _ (by simp [h])
  have h1 : (get_formulas findall).2 =
      (get_formulas findall).1.map pySubLabel :=
    key (List.range 5) ([], []) rfl
  exact ⟨h1, by rw [h1, List.length_map]⟩

/-! ## Claim C9 -/

theorem extract_key (findall : Nat → String → List String)
    (ds : List String) :
    ∀ acc : List String × List String,
      ds.foldl (fun (acc : List String × List String) d =>
          let r := get_formulas (fun p => findall p d)
          (acc.1 ++ r.1, acc.2 ++ r.2)) acc =
        (acc.1 ++ ds.flatMap (fun d => (get_formulas (fun p => findall p d)).1),
         acc.2 ++ ds.flatMap (fun d => (get_formulas (fun p => findall p d)).2)) := by
  induction ds with
  | nil => intro acc; simp
  | cons d t ih =>
      intro acc
      rw [List.foldl_cons, ih]
      simp [List.flatMap_cons, List.append_assoc]

theorem extractCorpus_flatMap (findall : Nat → String → List String)
    (docs : List String) :
    (extractCorpus findall docs).1 =
      docs.flatMap (fun d => (get_formulas (fun p => findall p d)).1) := by
  unfold extractCorpus
  rw [extract_key]
  rfl

theorem dedup_toFinset (l : List String) : l.dedup.toFinset = l.toFinset :=
  List.toFinset.ext (fun _ => List.mem_dedup)

/-- C9: the unique-formula set produced by extraction followed by
deduplication is independent of the order of the input documents, and
deduplication is idempotent (a second application to its own output
changes nothing). -/
theorem c9_dedup (findall : Nat → String → List String)
    (docs docs2 : List String) (hperm : docs.Perm docs2) :
    (extractCorpus findall docs).1.dedup.toFinset =
      (extractCorpus findall docs2).1.dedup.toFinset ∧
    ∀ l : List String, l.dedup.dedup = l.dedup := by
  constructor
  · rw [extractCorpus_flatMap, extractCorpus_flatMap, dedup_toFinset,
      dedup_toFinset]
    exact List.toFinset_eq_of_perm _ _
      (List.Perm.flatMap_right _ hperm)
  · intro l
    exact List.dedup_idem

/-- C9: witness at a concrete two-document corpus and its reversal. -/
theorem c9_witness :
    (extractCorpus findallNone ["a", "b"]).1.dedup.toFinset =
      (extractCorpus findallNone ["b", "a"]).1.dedup.toFinset :=
  (c9_dedup findallNone ["a", "b"] ["b", "a"] (by decide)).1
